import Mathlib

/-!
Verification development for a single-room websocket chat relay written in Go
(`main.go`).  The Go code is shallowly embedded below: pure functions become
Lean functions, the per-connection handler becomes a trace-producing function,
the broadcast goroutine becomes a fold over the queued messages, and the
`clients` map guarded by `clientsMtx` becomes an explicit registry value.
Go strings are embedded as Lean `String`; Go's `len` on a string counts UTF-8
bytes, embedded as `goLen` below.
-/

namespace Chat

/-- `maxUsernameLength = 50` from the `const` block of `main.go`. -/
def maxUsernameLength : Nat := 50

/-- `maxMessageLength = 5000` from the `const` block of `main.go`. -/
def maxMessageLength : Nat := 5000

/-- Number of bytes of the UTF-8 encoding of one code point (standard UTF-8
width table: 1 byte below U+0080, 2 below U+0800, 3 below U+10000, else 4). -/
def charUtf8Size (c : Char) : Nat :=
  if c.toNat < 0x80 then 1 else if c.toNat < 0x800 then 2
  else if c.toNat < 0x10000 then 3 else 4

/-- Go's `len` on a string: the number of bytes of its UTF-8 encoding. -/
def goLen (s : String) : Nat := (s.data.map charUtf8Size).sum

/-- The `Message` struct of `main.go`; field names follow the JSON wire tags
(`type`, `username`, `content`, `time`) of the Go fields `Type`, `Username`,
`Content`, `Time`. -/
structure Message where
  type : String
  username : String
  content : String
  time : String
deriving DecidableEq, Repr

/-- `(*Message).Validate` from `main.go`: empty content, then over-long
content (Go `len`, i.e. bytes), then unknown non-empty type; `nil` error on
success is embedded as `Except.ok ()`, a non-nil error as `Except.error` of
the formatted message. -/
def Message.Validate (m : Message) : Except String Unit :=
  if m.content = "" then
    .error "message content cannot be empty"
  else if goLen m.content > maxMessageLength then
    .error ("message content too long (max " ++ toString maxMessageLength ++ " characters)")
  else if m.type ≠ "" && m.type ≠ "message" && m.type ≠ "system" then
    .error ("invalid message type: " ++ m.type)
  else
    .ok ()

/-- Membership of one character in the class `[a-zA-Z0-9_-]` of
`validUsernameRegex`. -/
def validUsernameChar (c : Char) : Bool :=
  (decide ('a' ≤ c) && decide (c ≤ 'z')) ||
  (decide ('A' ≤ c) && decide (c ≤ 'Z')) ||
  (decide ('0' ≤ c) && decide (c ≤ '9')) ||
  c == '_' || c == '-'

/-- `validUsernameRegex.MatchString` for the anchored pattern
`^[a-zA-Z0-9_-]+$`: the string is non-empty and every character lies in the
class. -/
def validUsernameRegexMatches (s : String) : Bool :=
  !s.isEmpty && s.data.all validUsernameChar

/-- `(*ChatServer).validateUsername` from `main.go` (the receiver is unused in
the Go code): empty is allowed, then byte length over 50 is rejected, then a
regex mismatch is rejected. -/
def validateUsername (username : String) : Except String Unit :=
  if username = "" then
    .ok ()
  else if goLen username > maxUsernameLength then
    .error ("username too long (max " ++ toString maxUsernameLength ++ " characters)")
  else if !validUsernameRegexMatches username then
    .error "username contains invalid characters (only letters, numbers, underscore, and hyphen allowed)"
  else
    .ok ()

/-- Decimal digit characters of `n`, most significant first, accumulated onto
`acc`; the recursion mirrors repeated division by 10. -/
def decDigitsAux (n : Nat) (acc : List Char) : List Char :=
  if h : n < 10 then Nat.digitChar n :: acc
  else decDigitsAux (n / 10) (Nat.digitChar (n % 10) :: acc)
termination_by n
decreasing_by exact Nat.div_lt_self (by omega) (by omega)

/-- `fmt.Sprintf`'s `%d` rendering of a natural number: its decimal digits. -/
def decRepr (n : Nat) : String := String.mk (decDigitsAux n [])

/-- `fmt.Sprintf("User-%d", time.Now().UnixNano()%10000)` from
`handleConnection`, with the acceptance instant's `UnixNano` value embedded as
a natural number. -/
def autoUsername (unixNanos : Nat) : String :=
  "User-" ++ decRepr (unixNanos % 10000)

/-- The `Client` struct of `main.go`: the `*websocket.Conn` is embedded by its
identity (`conn : Nat`), paired with the assigned username. -/
structure Client where
  conn : Nat
  username : String
deriving DecidableEq, Repr

/-- The `clients map[*Client]bool` registry, embedded as the list of its keys
(each Go map key occurs at most once; `registerClient` preserves that). -/
abbrev Registry := List Client

/-- `cs.clients[client] = true` under `clientsMtx`: map insert. -/
def registerClient (r : Registry) (c : Client) : Registry :=
  if c ∈ r then r else r ++ [c]

/-- `delete(cs.clients, client)` under `clientsMtx`: Go's `delete` removes the
key when present and does nothing when absent. -/
def deregister (r : Registry) (c : Client) : Registry :=
  r.filter (fun x => decide (x ≠ c))

/-- A Go channel, characterized by the buffer capacity it was made with. -/
structure GoChan where
  capacity : Nat
deriving DecidableEq, Repr

/-- The `ChatServer` struct: the registry and the broadcast channel. -/
structure ChatServer where
  clients : Registry
  broadcast : GoChan
deriving DecidableEq, Repr

/-- `NewChatServer` from `main.go`: empty client map and
`make(chan Message)`, a channel of capacity 0 (unbuffered). -/
def NewChatServer : ChatServer :=
  { clients := [], broadcast := { capacity := 0 } }

/-- Go channel-send semantics: a send completes without blocking the sender
exactly when a receiver is already waiting on the channel or the buffer has a
free slot; otherwise the sender blocks. -/
def sendCompletesImmediately (ch : GoChan) (buffered waitingReceivers : Nat) : Bool :=
  decide (0 < waitingReceivers) || decide (buffered < ch.capacity)

/-- `websocket.StatusInternalError` (RFC 6455 close code 1011), the abnormal
close code the dispatcher uses on a failed write. -/
def StatusInternalError : Nat := 1011

/-- A transport closed by the dispatcher, with the close code and reason
passed to `conn.Close`. -/
structure ClosedConn where
  client : Client
  status : Nat
  reason : String
deriving DecidableEq, Repr

/-- Outcome of dispatching one message in `handleBroadcasts`: who received a
successful write, who was closed and deleted, and the registry afterwards. -/
structure DispatchStep where
  delivered : List Client
  closed : List ClosedConn
  remaining : Registry
deriving DecidableEq, Repr

/-- The inner `for client := range cs.clients` loop of `handleBroadcasts` for
one message: each registered client gets one bounded-deadline
`wsjson.Write`; `writeOk` tells whether that write succeeded within its 5 s
deadline.  On failure the client's transport is closed with
`StatusInternalError` and the client is deleted from the registry.  (Go map
iteration order is unspecified; the list order stands in for it, and nothing
proved below depends on it.) -/
def dispatchOne (writeOk : Client → Message → Bool) : Registry → Message → DispatchStep
  | [], _ => { delivered := [], closed := [], remaining := [] }
  | cl :: rest, msg =>
    let s := dispatchOne writeOk rest msg
    if writeOk cl msg then
      { delivered := cl :: s.delivered, closed := s.closed, remaining := cl :: s.remaining }
    else
      { delivered := s.delivered,
        closed := { client := cl, status := StatusInternalError,
                    reason := "Failed to send message" } :: s.closed,
        remaining := s.remaining }

/-- The outer `for msg := range cs.broadcast` loop of `handleBroadcasts`,
run over a queue of messages: returns the final registry and, per message in
order, the list of clients it was delivered to. -/
def handleBroadcasts (writeOk : Client → Message → Bool) :
    Registry → List Message → Registry × List (Message × List Client)
  | r, [] => (r, [])
  | r, msg :: rest =>
    let s := dispatchOne writeOk r msg
    let p := handleBroadcasts writeOk s.remaining rest
    (p.1, (msg, s.delivered) :: p.2)

/-- One outcome of the `wsjson.Read` call in the read loop: a decoded frame,
a graceful close (`StatusGoingAway` / `StatusNormalClosure`), or any other
read failure (abnormal close, malformed JSON, or the 60 s read deadline
expiring — all land in the `else if err != nil` branch). -/
inductive ReadEvent where
  | frame (m : Message)
  | closeGraceful
  | readFailure
deriving DecidableEq, Repr

/-- The metadata stamping in the read loop of `handleConnection`:
`msg.Username = client.username`, `msg.Time = time.Now().Format(...)`, and a
missing type defaults to `"message"`. -/
def stamp (boundUsername : String) (nowStr : String) (m : Message) : Message :=
  { m with username := boundUsername, time := nowStr,
           type := if m.type = "" then "message" else m.type }

/-- The read loop of `handleConnection` over a sequence of read outcomes,
collecting the messages sent to `cs.broadcast` in order.  `now i` is the
RFC 3339 rendering of `time.Now()` at the `i`-th read.  A graceful close or a
read failure breaks the loop; an exhausted event list stands for the read
deadline expiring with no further traffic, which also breaks the loop.
Each received frame is stamped, then validated; an invalid frame is dropped
(`continue`), a valid one is enqueued. -/
def readLoop (boundUsername : String) (now : Nat → String) :
    List ReadEvent → Nat → List Message
  | [], _ => []
  | .closeGraceful :: _, _ => []
  | .readFailure :: _, _ => []
  | .frame m :: rest, i =>
    let stamped := stamp boundUsername (now i) m
    match stamped.Validate with
    | .error _ => readLoop boundUsername now rest (i + 1)
    | .ok _ => stamped :: readLoop boundUsername now rest (i + 1)

/-- One observable action of `handleConnection` against the shared state:
registering its client, enqueueing a message onto `cs.broadcast`, or deleting
its client from the registry. -/
inductive Action where
  | register (c : Client)
  | enqueue (m : Message)
  | deregister (c : Client)
deriving DecidableEq, Repr

/-- Result of `handleConnection`: either an `http.Error` client-error response
with no upgrade and no shared-state action, or the ordered trace of
shared-state actions of the upgraded connection. -/
inductive HResult where
  | rejected (httpStatus : Nat) (errMsg : String)
  | handled (trace : List Action)
deriving DecidableEq, Repr

/-- The username the handler binds to the connection: the query value, or the
auto-generated name when none was supplied. -/
def assignedUsername (queryUsername : String) (acceptNanos : Nat) : String :=
  if queryUsername = "" then autoUsername acceptNanos else queryUsername

/-- `(*ChatServer).handleConnection` from `main.go`, embedded as the trace of
shared-state actions it performs.  The username comes from the `username`
query parameter; an invalid one gets `http.Error(..., 400)` before any
upgrade.  `acceptNanos` is `time.Now().UnixNano()` at accept time, `connId`
the identity of the accepted `*websocket.Conn`, `now` the successive
`time.Now().Format(time.RFC3339)` values (index 0 for the join notice, `i+1`
for the `i`-th read, `events.length + 1` for the leave notice), and `events`
the outcomes of the successive reads.  (The `websocket.Accept` failure path,
which also performs no shared-state action, is not modelled.) -/
def handleConnection (queryUsername : String) (acceptNanos : Nat) (connId : Nat)
    (now : Nat → String) (events : List ReadEvent) : HResult :=
  match validateUsername queryUsername with
  | .error e => .rejected 400 e
  | .ok _ =>
    let username := assignedUsername queryUsername acceptNanos
    let client : Client := { conn := connId, username := username }
    let joinMsg : Message :=
      { type := "system", username := "Server",
        content := username ++ " has joined the chat", time := now 0 }
    let leaveMsg : Message :=
      { type := "system", username := "Server",
        content := username ++ " has left the chat", time := now (events.length + 1) }
    .handled (Action.register client :: Action.enqueue joinMsg ::
      ((readLoop username (fun i => now (i + 1)) events 0).map Action.enqueue ++
       [Action.deregister client, Action.enqueue leaveMsg]))

/-- Effect of one trace action on the registry (enqueues do not touch it). -/
def applyAction (r : Registry) : Action → Registry
  | .register c => registerClient r c
  | .enqueue _ => r
  | .deregister c => deregister r c

/-- Effect of a whole trace on the registry. -/
def applyActions (r : Registry) (tr : List Action) : Registry :=
  tr.foldl applyAction r

/-- Effect of a `handleConnection` result on the registry: a rejected
connection performs no action. -/
def registryEffect (r : Registry) : HResult → Registry
  | .rejected _ _ => r
  | .handled tr => applyActions r tr

/-- Overwrite the sender and time fields a client supplied in an inbound
frame (other read outcomes are unchanged): used to state that supplied
identity and time are irrelevant. -/
def spoofSenderTime (u t : String) : ReadEvent → ReadEvent
  | .frame m => .frame { m with username := u, time := t }
  | e => e

/-- A concrete clock for witnesses: the decimal rendering of the index. -/
def clockEx (i : Nat) : String := toString i

/-- The relay-authored join notice of `handleConnection`. -/
def joinNotice (name ts : String) : Message :=
  { type := "system", username := "Server", content := name ++ " has joined the chat", time := ts }

/-- The relay-authored leave notice of `handleConnection`. -/
def leaveNotice (name ts : String) : Message :=
  { type := "system", username := "Server", content := name ++ " has left the chat", time := ts }


/-- Content of 1667 copies of the euro sign: 1667 characters, 5001 UTF-8
bytes. -/
def euroContent : String := String.mk (List.replicate 1667 '€')

/-- A well-typed chat message whose body is 1667 characters long. -/
def euroMsg : Message :=
  { type := "message", username := "u", content := euroContent, time := "" }

theorem goLen_mk_replicate (n : Nat) (c : Char) :
    goLen (String.mk (List.replicate n c)) = n * charUtf8Size c := by
  induction n with
  | zero => simp [goLen]
  | succ k ih =>
    simp only [List.replicate_succ, goLen, List.map_cons, List.sum_cons] at ih ⊢
    rw [Nat.succ_mul]
    omega

theorem charUtf8Size_euro : charUtf8Size '€' = 3 := by decide

theorem euroContent_length : euroContent.length = 1667 := by
  show (List.replicate 1667 '€').length = 1667
  exact List.length_replicate _ _

theorem euroContent_ne_empty : euroContent ≠ "" := by
  intro h
  have h2 : euroContent.length = 0 := by rw [h]; rfl
  rw [euroContent_length] at h2
  omega

theorem euroContent_goLen : goLen euroContent = 5001 := by
  show goLen (String.mk (List.replicate 1667 '€')) = 5001
  rw [goLen_mk_replicate, charUtf8Size_euro]

/-- C2 counterexample: a message whose body is 1667 characters (each the
3-byte euro sign), non-empty and with an allowed type, matches none of the
claim's three rejection rules (in particular its body is not longer than 5000
characters), yet `Validate` rejects it with the length reason: the length
check counts UTF-8 bytes, not characters. -/
theorem C2_counterexample :
    euroMsg.content ≠ "" ∧
    euroMsg.content.length ≤ 5000 ∧
    euroMsg.type = "message" ∧
    euroMsg.Validate = Except.error "message content too long (max 5000 characters)" := by
  refine ⟨euroContent_ne_empty, ?_, rfl, ?_⟩
  · show euroContent.length ≤ 5000
    rw [euroContent_length]
    omega
  · show Message.Validate euroMsg = _
    unfold Message.Validate
    rw [if_neg (by exact euroContent_ne_empty)]
    rw [if_pos]
    · rfl
    · show goLen euroMsg.content > maxMessageLength
      show goLen euroContent > maxMessageLength
      rw [euroContent_goLen]
      norm_num [maxMessageLength]

/-- C2 (amended: lengths are UTF-8 byte lengths): `Validate` checks the three
rules in order and returns the first matching rejection — empty body, then
body over 5000 bytes, then a present type outside the allowed pair — and
accepts every other message.  Being a Lean function of the message alone, it
has no side effects. -/
theorem C2_validate_first_match (m : Message) :
    (m.content = "" → m.Validate = Except.error "message content cannot be empty") ∧
    (m.content ≠ "" → maxMessageLength < goLen m.content →
      m.Validate = Except.error "message content too long (max 5000 characters)") ∧
    (m.content ≠ "" → goLen m.content ≤ maxMessageLength →
      m.type ≠ "" → m.type ≠ "message" → m.type ≠ "system" →
      m.Validate = Except.error ("invalid message type: " ++ m.type)) ∧
    (m.content ≠ "" → goLen m.content ≤ maxMessageLength →
      (m.type = "" ∨ m.type = "message" ∨ m.type = "system") →
      m.Validate = Except.ok ()) := by
  unfold Message.Validate
  refine ⟨fun h1 => by simp [h1], fun h1 h2 => ?_, fun h1 h2 h3 h4 h5 => ?_, fun h1 h2 h3 => ?_⟩
  · rw [if_neg h1, if_pos (by omega)]
    rfl
  · rw [if_neg h1, if_neg (by omega), if_pos (by simp [h3, h4, h5])]
  · rw [if_neg h1, if_neg (by omega), if_neg]
    simp only [Bool.and_eq_true, decide_eq_true_eq, not_and]
    rcases h3 with h | h | h <;> simp [h]

/-- C2 witness: a plain short chat message is accepted. -/
theorem C2_witness :
    Message.Validate { type := "message", username := "u", content := "hi", time := "" } =
      Except.ok () :=
  (C2_validate_first_match _).2.2.2 (by decide) (by decide) (Or.inr (Or.inl rfl))

/-- C8: `deregister` of an absent handle is a no-op — the registry (hence its
size) is unchanged and no failure is raised (`deregister` is total) — and
deregistering twice equals deregistering once, so dispatch-triggered and
lifecycle-triggered removal of the same handle compose safely in either
order. -/
theorem C8_deregister_idempotent (r : Registry) (c : Client) (h : c ∉ r) :
    deregister r c = r ∧ (deregister r c).length = r.length ∧
    ∀ r2 : Registry, deregister (deregister r2 c) c = deregister r2 c := by
  have hall : deregister r c = r := by
    apply List.filter_eq_self.mpr
    intro a ha
    simp only [decide_eq_true_eq]
    rintro rfl
    exact h ha
  refine ⟨hall, by rw [hall], fun r2 => ?_⟩
  simp [deregister, List.filter_filter]

/-- C8 witness: removing an absent handle from a one-element registry leaves
it intact. -/
theorem C8_witness :
    deregister [Client.mk 1 "a"] (Client.mk 2 "b") = [Client.mk 1 "a"] :=
  (C8_deregister_idempotent [Client.mk 1 "a"] (Client.mk 2 "b") (by decide)).1


theorem readLoop_frame (bn : String) (now : Nat → String) (m : Message)
    (rest : List ReadEvent) (i : Nat) :
    readLoop bn now (ReadEvent.frame m :: rest) i =
      (match (stamp bn (now i) m).Validate with
       | .error _ => readLoop bn now rest (i + 1)
       | .ok _ => stamp bn (now i) m :: readLoop bn now rest (i + 1)) := rfl

theorem readLoop_frame_ok (bn : String) (now : Nat → String) (m : Message)
    (rest : List ReadEvent) (i : Nat)
    (h : (stamp bn (now i) m).Validate = Except.ok ()) :
    readLoop bn now (ReadEvent.frame m :: rest) i =
      stamp bn (now i) m :: readLoop bn now rest (i + 1) := by
  rw [readLoop_frame, h]

theorem readLoop_frame_error (bn : String) (now : Nat → String) (m : Message)
    (rest : List ReadEvent) (i : Nat) (e : String)
    (h : (stamp bn (now i) m).Validate = Except.error e) :
    readLoop bn now (ReadEvent.frame m :: rest) i = readLoop bn now rest (i + 1) := by
  rw [readLoop_frame, h]

/-- C1: every message the read loop hands to the broadcast queue carries the
username bound to the connection at accept time and a time drawn from the
relay's clock; and replacing the username and time supplied in every inbound
frame by arbitrary values leaves the broadcast output unchanged, so no
supplied value can alter the delivered sender identity or timestamp. -/
theorem C1_relay_stamps_sender (bn : String) (now : Nat → String) (u t : String)
    (events : List ReadEvent) (i : Nat) :
    (∀ m ∈ readLoop bn now events i, m.username = bn ∧ ∃ j, m.time = now j) ∧
    readLoop bn now (events.map (spoofSenderTime u t)) i = readLoop bn now events i := by
  induction events generalizing i with
  | nil => exact ⟨by simp [readLoop], rfl⟩
  | cons e rest ih =>
    cases e with
    | closeGraceful => exact ⟨by simp [readLoop], rfl⟩
    | readFailure => exact ⟨by simp [readLoop], rfl⟩
    | frame m =>
      have hst : stamp bn (now i) { m with username := u, time := t } = stamp bn (now i) m := rfl
      constructor
      · intro m2 hm2
        rcases hv : (stamp bn (now i) m).Validate with e0 | u0
        · rw [readLoop_frame_error bn now m rest i e0 hv] at hm2
          exact (ih (i + 1)).1 m2 hm2
        · cases u0
          rw [readLoop_frame_ok bn now m rest i hv] at hm2
          rcases List.mem_cons.mp hm2 with h | h
          · subst h
            exact ⟨rfl, ⟨i, rfl⟩⟩
          · exact (ih (i + 1)).1 m2 h
      · show readLoop bn now
            (ReadEvent.frame { m with username := u, time := t } :: rest.map (spoofSenderTime u t)) i = _
        rw [readLoop_frame bn now { m with username := u, time := t } (rest.map (spoofSenderTime u t)) i,
            readLoop_frame bn now m rest i, hst, (ih (i + 1)).2]

/-- C1 witness: a frame carrying a spoofed username and time is delivered with
the bound name and the server clock value instead. -/
theorem C1_witness :
    readLoop "alice" clockEx
        ([ReadEvent.frame { type := "", username := "alice", content := "hi", time := "9" }].map
          (spoofSenderTime "mallory" "1970")) 0 =
      readLoop "alice" clockEx
        [ReadEvent.frame { type := "", username := "alice", content := "hi", time := "9" }] 0 :=
  (C1_relay_stamps_sender "alice" clockEx "mallory" "1970"
    [ReadEvent.frame { type := "", username := "alice", content := "hi", time := "9" }] 0).2

/-- C6: an inbound frame that fails validation after stamping is silently
dropped: the loop's broadcast output is exactly the output of the remaining
events (nothing is enqueued for the bad frame, no error frame is produced,
and the loop — hence the connection — continues), and an immediately
following valid frame from the same connection is broadcast normally. -/
theorem C6_invalid_silently_dropped (bn : String) (now : Nat → String) (m : Message)
    (rest : List ReadEvent) (i : Nat) (e : String)
    (herr : (stamp bn (now i) m).Validate = Except.error e) :
    readLoop bn now (ReadEvent.frame m :: rest) i = readLoop bn now rest (i + 1) ∧
    ∀ m2 : Message, (stamp bn (now (i + 1)) m2).Validate = Except.ok () →
      readLoop bn now (ReadEvent.frame m :: ReadEvent.frame m2 :: rest) i =
        stamp bn (now (i + 1)) m2 :: readLoop bn now rest (i + 2) := by
  refine ⟨readLoop_frame_error bn now m rest i e herr, fun m2 h2 => ?_⟩
  rw [readLoop_frame_error bn now m (ReadEvent.frame m2 :: rest) i e herr,
      readLoop_frame_ok bn now m2 rest (i + 1) h2]

/-- C6 witness: an empty-bodied frame from "bob" is dropped and the following
valid frame is still broadcast. -/
theorem C6_witness :
    readLoop "bob" clockEx
        [ReadEvent.frame { type := "", username := "x", content := "", time := "t" },
         ReadEvent.frame { type := "", username := "", content := "ok", time := "" }] 0 =
      stamp "bob" (clockEx 1) { type := "", username := "", content := "ok", time := "" } ::
        readLoop "bob" clockEx [] 2 :=
  (C6_invalid_silently_dropped "bob" clockEx
      { type := "", username := "x", content := "", time := "t" } []
      0 "message content cannot be empty" rfl).2
    { type := "", username := "", content := "ok", time := "" } rfl


theorem Message.validate_ok (m : Message) (h1 : m.content ≠ "")
    (h2 : goLen m.content ≤ maxMessageLength)
    (h3 : m.type = "" ∨ m.type = "message" ∨ m.type = "system") :
    m.Validate = Except.ok () := by
  unfold Message.Validate
  rw [if_neg h1, if_neg (by omega), if_neg]
  simp only [Bool.and_eq_true, decide_eq_true_eq, not_and]
  rcases h3 with h | h | h <;> simp [h]

theorem dispatchOne_all_ok (r : Registry) (msg : Message) :
    (dispatchOne (fun _ _ => true) r msg).delivered = r ∧
    (dispatchOne (fun _ _ => true) r msg).remaining = r := by
  induction r with
  | nil => exact ⟨rfl, rfl⟩
  | cons c rest ih => simp [dispatchOne, ih.1, ih.2]

/-- C9: a client-submitted frame typed "system" with a non-empty body within
the size limit passes validation after stamping and is enqueued with type
"system", the sender's bound username, the original body, and the server
clock value; a dispatch pass in which every write succeeds delivers it to
every registered client.  Ordinary participants can thus author system-typed
frames that are not relay join/leave notices. -/
theorem C9_client_system_frame (bn : String) (now : Nat → String) (m : Message)
    (rest : List ReadEvent) (i : Nat)
    (htype : m.type = "system") (hne : m.content ≠ "")
    (hlen : goLen m.content ≤ maxMessageLength) :
    readLoop bn now (ReadEvent.frame m :: rest) i =
      { type := "system", username := bn, content := m.content, time := now i } ::
        readLoop bn now rest (i + 1) ∧
    ∀ r : Registry,
      (dispatchOne (fun _ _ => true) r
        { type := "system", username := bn, content := m.content, time := now i }).delivered = r := by
  have hstamp : stamp bn (now i) m =
      { type := "system", username := bn, content := m.content, time := now i } := by
    simp [stamp, htype]
  have hval : (stamp bn (now i) m).Validate = Except.ok () := by
    rw [hstamp]
    exact Message.validate_ok _ hne hlen (Or.inr (Or.inr rfl))
  refine ⟨?_, fun r => (dispatchOne_all_ok r _).1⟩
  rw [readLoop_frame_ok bn now m rest i hval, hstamp]

/-- C9 witness: a "system"-typed client frame is broadcast as such with the
bound username. -/
theorem C9_witness :
    readLoop "alice" clockEx
        [ReadEvent.frame { type := "system", username := "eve", content := "hello", time := "z" }] 0 =
      [{ type := "system", username := "alice", content := "hello", time := clockEx 0 }] :=
  (C9_client_system_frame "alice" clockEx
      { type := "system", username := "eve", content := "hello", time := "z" } [] 0
      rfl (by decide) (by decide)).1

theorem dispatchOne_mem_delivered (writeOk : Client → Message → Bool)
    (r : Registry) (msg : Message) (c : Client) :
    c ∈ (dispatchOne writeOk r msg).delivered → c ∈ r := by
  induction r with
  | nil => simp [dispatchOne]
  | cons cl rest ih =>
    simp only [dispatchOne]
    split
    · intro h
      rcases List.mem_cons.mp h with h | h
      · exact h ▸ List.mem_cons_self cl rest
      · exact List.mem_cons_of_mem cl (ih h)
    · intro h
      exact List.mem_cons_of_mem cl (ih h)

theorem dispatchOne_mem_remaining (writeOk : Client → Message → Bool)
    (r : Registry) (msg : Message) (c : Client) :
    c ∈ (dispatchOne writeOk r msg).remaining → c ∈ r := by
  induction r with
  | nil => simp [dispatchOne]
  | cons cl rest ih =>
    simp only [dispatchOne]
    split
    · intro h
      rcases List.mem_cons.mp h with h | h
      · exact h ▸ List.mem_cons_self cl rest
      · exact List.mem_cons_of_mem cl (ih h)
    · intro h
      exact List.mem_cons_of_mem cl (ih h)

theorem dispatchOne_failed_not_remaining (writeOk : Client → Message → Bool)
    (r : Registry) (msg : Message) (c : Client) (hf : writeOk c msg = false) :
    c ∉ (dispatchOne writeOk r msg).remaining := by
  induction r with
  | nil => simp [dispatchOne]
  | cons cl rest ih =>
    simp only [dispatchOne]
    split
    · next hcl =>
      intro h
      rcases List.mem_cons.mp h with h | h
      · subst h
        rw [hf] at hcl
        exact Bool.false_ne_true hcl
      · exact ih h
    · exact ih

theorem dispatchOne_failed_closed (writeOk : Client → Message → Bool)
    (r : Registry) (msg : Message) (c : Client) (hc : c ∈ r)
    (hf : writeOk c msg = false) :
    ClosedConn.mk c StatusInternalError "Failed to send message" ∈
      (dispatchOne writeOk r msg).closed := by
  induction r with
  | nil => cases hc
  | cons cl rest ih =>
    rcases List.mem_cons.mp hc with h | h
    · subst h
      simp only [dispatchOne, hf]
      exact List.mem_cons_self _ _
    · simp only [dispatchOne]
      split
      · exact ih h
      · exact List.mem_cons_of_mem _ (ih h)

theorem dispatchOne_ok_delivered (writeOk : Client → Message → Bool)
    (r : Registry) (msg : Message) (c : Client) (hc : c ∈ r)
    (ht : writeOk c msg = true) :
    c ∈ (dispatchOne writeOk r msg).delivered := by
  induction r with
  | nil => cases hc
  | cons cl rest ih =>
    rcases List.mem_cons.mp hc with h | h
    · subst h
      simp only [dispatchOne, ht]
      exact List.mem_cons_self _ _
    · simp only [dispatchOne]
      split
      · exact List.mem_cons_of_mem _ (ih h)
      · exact ih h

theorem handleBroadcasts_length (writeOk : Client → Message → Bool)
    (msgs : List Message) (r : Registry) :
    (handleBroadcasts writeOk r msgs).2.length = msgs.length := by
  induction msgs generalizing r with
  | nil => rfl
  | cons msg rest ih => simp [handleBroadcasts, ih]

theorem handleBroadcasts_absent_never_delivered (writeOk : Client → Message → Bool)
    (msgs : List Message) (r : Registry) (c : Client) (hc : c ∉ r) :
    ∀ p ∈ (handleBroadcasts writeOk r msgs).2, c ∉ p.2 := by
  induction msgs generalizing r with
  | nil => simp [handleBroadcasts]
  | cons msg rest ih =>
    intro p hp
    simp only [handleBroadcasts] at hp
    rcases List.mem_cons.mp hp with h | h
    · subst h
      exact fun hd => hc (dispatchOne_mem_delivered writeOk r msg c hd)
    · exact ih (dispatchOne writeOk r msg).remaining
        (fun hr => hc (dispatchOne_mem_remaining writeOk r msg c hr)) p h

/-- C4: if the write of `msg` to registered client `c` fails (or its 5-second
deadline expires), the dispatcher closes c's transport with the abnormal
close code 1011 ("Failed to send message") and deletes c from the registry in
the same iteration, so c is absent afterwards and is delivered no message of
any subsequent batch; every other client whose write succeeds still receives
`msg` in the same batch; and the dispatcher loop neither stops nor crashes —
it still processes every remaining queued message. -/
theorem C4_write_failure_isolated (writeOk : Client → Message → Bool) (r : Registry)
    (c : Client) (msg : Message) (msgs : List Message)
    (hc : c ∈ r) (hf : writeOk c msg = false) :
    c ∉ (dispatchOne writeOk r msg).remaining ∧
    ClosedConn.mk c StatusInternalError "Failed to send message" ∈
      (dispatchOne writeOk r msg).closed ∧
    (∀ c2 ∈ r, writeOk c2 msg = true → c2 ∈ (dispatchOne writeOk r msg).delivered) ∧
    (handleBroadcasts writeOk (dispatchOne writeOk r msg).remaining msgs).2.length =
      msgs.length ∧
    (∀ p ∈ (handleBroadcasts writeOk (dispatchOne writeOk r msg).remaining msgs).2,
      c ∉ p.2) :=
  ⟨dispatchOne_failed_not_remaining writeOk r msg c hf,
   dispatchOne_failed_closed writeOk r msg c hc hf,
   fun c2 hc2 ht2 => dispatchOne_ok_delivered writeOk r msg c2 hc2 ht2,
   handleBroadcasts_length writeOk msgs _,
   handleBroadcasts_absent_never_delivered writeOk msgs _ c
     (dispatchOne_failed_not_remaining writeOk r msg c hf)⟩

/-- C4 witness: with clients 1 and 2 registered and every write to client 2
failing, dispatching one message delivers it to client 1, closes and removes
client 2, and a subsequent batch delivers nothing to client 2. -/
theorem C4_witness :
    Client.mk 2 "b" ∉
      (dispatchOne (fun cl _ => cl.conn == 1) [Client.mk 1 "a", Client.mk 2 "b"]
        { type := "message", username := "a", content := "hi", time := "t" }).remaining ∧
    ClosedConn.mk (Client.mk 2 "b") StatusInternalError "Failed to send message" ∈
      (dispatchOne (fun cl _ => cl.conn == 1) [Client.mk 1 "a", Client.mk 2 "b"]
        { type := "message", username := "a", content := "hi", time := "t" }).closed ∧
    (∀ c2 ∈ [Client.mk 1 "a", Client.mk 2 "b"],
      (fun (cl : Client) (_ : Message) => cl.conn == 1) c2
          { type := "message", username := "a", content := "hi", time := "t" } = true →
      c2 ∈ (dispatchOne (fun cl _ => cl.conn == 1) [Client.mk 1 "a", Client.mk 2 "b"]
        { type := "message", username := "a", content := "hi", time := "t" }).delivered) ∧
    (handleBroadcasts (fun cl _ => cl.conn == 1)
      (dispatchOne (fun cl _ => cl.conn == 1) [Client.mk 1 "a", Client.mk 2 "b"]
        { type := "message", username := "a", content := "hi", time := "t" }).remaining
      [{ type := "message", username := "a", content := "again", time := "t2" }]).2.length = 1 ∧
    (∀ p ∈ (handleBroadcasts (fun cl _ => cl.conn == 1)
      (dispatchOne (fun cl _ => cl.conn == 1) [Client.mk 1 "a", Client.mk 2 "b"]
        { type := "message", username := "a", content := "hi", time := "t" }).remaining
      [{ type := "message", username := "a", content := "again", time := "t2" }]).2,
      Client.mk 2 "b" ∉ p.2) :=
  C4_write_failure_isolated (fun cl _ => cl.conn == 1)
    [Client.mk 1 "a", Client.mk 2 "b"] (Client.mk 2 "b")
    { type := "message", username := "a", content := "hi", time := "t" }
    [{ type := "message", username := "a", content := "again", time := "t2" }]
    (by decide) (by decide)


/-- C3 counterexample: the broadcast channel is created by `make(chan
Message)` with capacity 0, and a send on it with an empty buffer and no
waiting receiver does not complete — the producing handler blocks, refuting
"enqueueing a message never blocks the producing connection lifecycle
handler". -/
theorem C3_counterexample :
    NewChatServer.broadcast.capacity = 0 ∧
    sendCompletesImmediately NewChatServer.broadcast 0 0 = false :=
  ⟨rfl, rfl⟩

/-- C3 (amended): the broadcast queue is an unbuffered rendezvous channel of
capacity 0 — an enqueue never fails and messages reach the single dispatcher
one at a time in rendezvous order, but a send completes immediately exactly
when the dispatcher is already waiting to receive; otherwise the producer
blocks (senders are subject to backpressure). -/
theorem C3_unbuffered_rendezvous (buffered waitingReceivers : Nat) :
    NewChatServer.broadcast.capacity = 0 ∧
    sendCompletesImmediately NewChatServer.broadcast buffered waitingReceivers =
      decide (0 < waitingReceivers) := by
  refine ⟨rfl, ?_⟩
  simp [sendCompletesImmediately, NewChatServer]

theorem charUtf8Size_of_validUsernameChar (c : Char) (h : validUsernameChar c = true) :
    charUtf8Size c = 1 := by
  simp only [validUsernameChar, Bool.or_eq_true, Bool.and_eq_true, decide_eq_true_eq,
    beq_iff_eq] at h
  have hlt : c.toNat < 0x80 := by
    rcases h with (((⟨h1, h2⟩ | ⟨h1, h2⟩) | ⟨h1, h2⟩) | h1) | h1
    · have h2n : c.toNat ≤ 122 := h2
      omega
    · have h2n : c.toNat ≤ 90 := h2
      omega
    · have h2n : c.toNat ≤ 57 := h2
      omega
    · subst h1; decide
    · subst h1; decide
  simp [charUtf8Size, hlt]

theorem goLen_eq_length_of_valid (l : List Char)
    (h : ∀ c ∈ l, validUsernameChar c = true) :
    (l.map charUtf8Size).sum = l.length := by
  induction l with
  | nil => rfl
  | cons c rest ih =>
    simp only [List.map_cons, List.sum_cons, List.length_cons]
    rw [charUtf8Size_of_validUsernameChar c (h c (List.mem_cons_self c rest)),
        ih (fun a ha => h a (List.mem_cons_of_mem c ha))]
    omega

theorem one_le_charUtf8Size (c : Char) : 1 ≤ charUtf8Size c := by
  unfold charUtf8Size
  split_ifs <;> omega

theorem length_le_goLen (s : String) : s.length ≤ goLen s := by
  show s.data.length ≤ (s.data.map charUtf8Size).sum
  induction s.data with
  | nil => simp
  | cons c rest ih =>
    simp only [List.length_cons, List.map_cons, List.sum_cons]
    have := one_le_charUtf8Size c
    omega

theorem string_ne_empty_data (s : String) (h : s ≠ "") : s.data ≠ [] := by
  intro hd
  apply h
  cases s
  cases hd
  rfl

theorem validateUsername_ok (s : String) (hne : s ≠ "")
    (hlen : s.length ≤ maxUsernameLength)
    (hchars : s.data.all validUsernameChar = true) :
    validateUsername s = Except.ok () := by
  have hall : ∀ c ∈ s.data, validUsernameChar c = true := List.all_eq_true.mp hchars
  have hbytes : goLen s = s.length := goLen_eq_length_of_valid s.data hall
  have hempty : s.isEmpty = false :=
    Bool.eq_false_iff.mpr (fun h => hne ((String.isEmpty_iff s).mp h))
  have hm : validUsernameRegexMatches s = true := by
    unfold validUsernameRegexMatches
    rw [hchars, Bool.and_true, hempty]
    rfl
  unfold validateUsername
  rw [if_neg hne, if_neg (by omega), if_neg (by simp [hm])]

theorem validateUsername_error (s : String) (hne : s ≠ "")
    (hbad : 50 < s.length ∨ ¬ s.data.all validUsernameChar = true) :
    ∃ e, validateUsername s = Except.error e := by
  unfold validateUsername
  rw [if_neg hne]
  by_cases hl : goLen s > maxUsernameLength
  · rw [if_pos hl]
    exact ⟨_, rfl⟩
  · rw [if_neg hl, if_pos]
    · exact ⟨_, rfl⟩
    · have hlen : s.length ≤ 50 := by
        have := length_le_goLen s
        simp only [maxUsernameLength] at hl
        omega
      have hczz : ¬ s.data.all validUsernameChar = true := by
        rcases hbad with h | h
        · omega
        · exact h
      simp only [validUsernameRegexMatches, Bool.not_eq_true']
      simp [Bool.eq_false_iff.mpr hczz]

/-- C5: the connection-time display-name check accepts the empty name (which
triggers auto-assignment) and every non-empty name of at most 50 characters
drawn from [A-Za-z0-9_-]; for every non-empty name that is longer than 50
characters or contains a character outside that set, `validateUsername`
returns an error and `handleConnection` answers with an HTTP 400 client-error
response carrying that reason, never upgrades the transport (its result holds
no trace of actions), and leaves every registry unchanged. -/
theorem C5_display_name_gate :
    validateUsername "" = Except.ok () ∧
    (∀ s : String, s ≠ "" → s.length ≤ 50 → s.data.all validUsernameChar = true →
      validateUsername s = Except.ok ()) ∧
    (∀ s : String, s ≠ "" →
      (50 < s.length ∨ ¬ s.data.all validUsernameChar = true) →
      ∃ e, validateUsername s = Except.error e ∧
        ∀ (nanos connId : Nat) (now : Nat → String) (events : List ReadEvent)
          (r : Registry),
          handleConnection s nanos connId now events = HResult.rejected 400 e ∧
          registryEffect r (handleConnection s nanos connId now events) = r) := by
  refine ⟨rfl, fun s h1 h2 h3 => validateUsername_ok s h1 h2 h3, fun s h1 h2 => ?_⟩
  obtain ⟨e, he⟩ := validateUsername_error s h1 h2
  refine ⟨e, he, fun nanos connId now events r => ?_⟩
  have hh : handleConnection s nanos connId now events = HResult.rejected 400 e := by
    unfold handleConnection
    rw [he]
  exact ⟨hh, by rw [hh]; rfl⟩

/-- C5 witness: "alice-01" is accepted; "bad name" (a space is outside the
class) is refused with a 400 and the registry is untouched. -/
theorem C5_witness :
    validateUsername "alice-01" = Except.ok () ∧
    ∃ e, validateUsername "bad name" = Except.error e ∧
      ∀ (nanos connId : Nat) (now : Nat → String) (events : List ReadEvent)
        (r : Registry),
        handleConnection "bad name" nanos connId now events = HResult.rejected 400 e ∧
        registryEffect r (handleConnection "bad name" nanos connId now events) = r :=
  ⟨C5_display_name_gate.2.1 "alice-01" (by decide) (by decide) (by decide),
   C5_display_name_gate.2.2 "bad name" (by decide) (Or.inr (by decide))⟩


/-- C7: every connection passing the name check produces a trace that starts
by registering the client and then enqueueing the "has joined the chat"
system notice attributed to "Server" with the server clock value, and — for
every possible sequence of read outcomes (graceful close, abnormal close or
deadline expiry, with any frames before) — ends by deregistering the client
and then, after the deregistration, enqueueing the symmetric "has left the
chat" notice; everything in between is only message enqueues. -/
theorem C7_join_then_leave (q : String) (nanos connId : Nat) (now : Nat → String)
    (events : List ReadEvent) (hok : validateUsername q = Except.ok ()) :
    ∃ mid : List Action,
      (∀ a ∈ mid, ∃ m, a = Action.enqueue m) ∧
      handleConnection q nanos connId now events =
        HResult.handled
          (Action.register { conn := connId, username := assignedUsername q nanos } ::
           Action.enqueue (joinNotice (assignedUsername q nanos) (now 0)) ::
           (mid ++
            [Action.deregister { conn := connId, username := assignedUsername q nanos },
             Action.enqueue (leaveNotice (assignedUsername q nanos) (now (events.length + 1)))])) := by
  refine ⟨(readLoop (assignedUsername q nanos) (fun i => now (i + 1)) events 0).map
      Action.enqueue, ?_, ?_⟩
  · intro a ha
    obtain ⟨m, _, rfl⟩ := List.mem_map.mp ha
    exact ⟨m, rfl⟩
  · unfold handleConnection
    rw [hok]
    rfl

/-- C7 witness: "alice" with no inbound traffic registers, announces the
join, deregisters, and announces the leave, in that order. -/
theorem C7_witness :
    ∃ mid : List Action,
      (∀ a ∈ mid, ∃ m, a = Action.enqueue m) ∧
      handleConnection "alice" 0 7 clockEx [] =
        HResult.handled
          (Action.register { conn := 7, username := assignedUsername "alice" 0 } ::
           Action.enqueue (joinNotice (assignedUsername "alice" 0) (clockEx 0)) ::
           (mid ++
            [Action.deregister { conn := 7, username := assignedUsername "alice" 0 },
             Action.enqueue (leaveNotice (assignedUsername "alice" 0) (clockEx 1))])) :=
  C7_join_then_leave "alice" 0 7 clockEx [] rfl

theorem validUsernameChar_digitChar (d : Nat) (h : d < 10) :
    validUsernameChar (Nat.digitChar d) = true := by
  interval_cases d <;> decide

theorem decDigitsAux_all_valid (n : Nat) :
    ∀ acc : List Char, (∀ c ∈ acc, validUsernameChar c = true) →
      ∀ c ∈ decDigitsAux n acc, validUsernameChar c = true := by
  induction n using Nat.strong_induction_on with
  | _ n ih =>
    intro acc hacc c hc
    unfold decDigitsAux at hc
    split at hc
    · next h =>
      rcases List.mem_cons.mp hc with rfl | hmem
      · exact validUsernameChar_digitChar n h
      · exact hacc c hmem
    · next h =>
      exact ih (n / 10) (Nat.div_lt_self (by omega) (by omega))
        (Nat.digitChar (n % 10) :: acc)
        (fun a ha => by
          rcases List.mem_cons.mp ha with rfl | ha2
          · exact validUsernameChar_digitChar (n % 10) (Nat.mod_lt n (by omega))
          · exact hacc a ha2) c hc

theorem decDigitsAux_length_le (k : Nat) :
    ∀ (n : Nat) (acc : List Char), n < 10 ^ k →
      (decDigitsAux n acc).length ≤ k + 1 + acc.length := by
  induction k with
  | zero =>
    intro n acc h
    rw [pow_zero] at h
    have hn : n = 0 := by omega
    subst hn
    unfold decDigitsAux
    split
    · simp only [List.length_cons]
      omega
    · next h2 => omega
  | succ k ih =>
    intro n acc h
    unfold decDigitsAux
    split
    · simp only [List.length_cons]
      omega
    · next hn =>
      have hdiv : n / 10 < 10 ^ k := by
        rw [Nat.div_lt_iff_lt_mul (by omega : 0 < 10)]
        calc n < 10 ^ (k + 1) := h
          _ = 10 ^ k * 10 := by rw [pow_succ]
      have hrec := ih (n / 10) (Nat.digitChar (n % 10) :: acc) hdiv
      simp only [List.length_cons] at hrec
      omega

theorem userPrefix_chars_valid : ∀ c ∈ "User-".data, validUsernameChar c = true := by
  decide

/-- C10: every auto-assigned display name is the string "User-" followed by
the decimal digits of a number in [0, 9999], and itself passes the
display-name validation: it is non-empty, within the 50-character (and
50-byte) limit, and drawn entirely from [A-Za-z0-9_-]. -/
theorem C10_auto_name_valid (nanos : Nat) :
    autoUsername nanos = "User-" ++ decRepr (nanos % 10000) ∧
    nanos % 10000 ≤ 9999 ∧
    autoUsername nanos ≠ "" ∧
    (autoUsername nanos).length ≤ maxUsernameLength ∧
    goLen (autoUsername nanos) ≤ maxUsernameLength ∧
    (autoUsername nanos).data.all validUsernameChar = true ∧
    validateUsername (autoUsername nanos) = Except.ok () := by
  have hdata : (autoUsername nanos).data =
      "User-".data ++ (decDigitsAux (nanos % 10000) []) :=
    String.data_append "User-" (decRepr (nanos % 10000))
  have hdigits : ∀ c ∈ decDigitsAux (nanos % 10000) [], validUsernameChar c = true :=
    decDigitsAux_all_valid (nanos % 10000) [] (by simp)
  have hall : ∀ c ∈ (autoUsername nanos).data, validUsernameChar c = true := by
    rw [hdata]
    intro c hc
    rcases List.mem_append.mp hc with h | h
    · exact userPrefix_chars_valid c h
    · exact hdigits c h
  have hdiglen : (decDigitsAux (nanos % 10000) []).length ≤ 5 := by
    have hub := decDigitsAux_length_le 4 (nanos % 10000) []
      (by norm_num; exact Nat.mod_lt nanos (by omega))
    simpa using hub
  have h5 : ("User-".data).length = 5 := by decide
  have hlen : (autoUsername nanos).length ≤ maxUsernameLength := by
    show (autoUsername nanos).data.length ≤ maxUsernameLength
    rw [hdata, List.length_append, h5]
    simp only [maxUsernameLength]
    omega
  have hne : autoUsername nanos ≠ "" := by
    intro h
    have h0 : (autoUsername nanos).data = [] := by rw [h]
    rw [hdata] at h0
    have hlen0 := congrArg List.length h0
    rw [List.length_append, h5] at hlen0
    simp at hlen0
  have hallb : (autoUsername nanos).data.all validUsernameChar = true :=
    List.all_eq_true.mpr hall
  refine ⟨rfl, by omega, hne, hlen, ?_, hallb, validateUsername_ok _ hne hlen hallb⟩
  show ((autoUsername nanos).data.map charUtf8Size).sum ≤ maxUsernameLength
  rw [goLen_eq_length_of_valid _ hall]
  exact hlen


/-- C3 witness for the amended statement: with one waiting receiver a send on
the capacity-0 channel completes immediately. -/
theorem C3_witness :
    NewChatServer.broadcast.capacity = 0 ∧
    sendCompletesImmediately NewChatServer.broadcast 0 1 = decide (0 < 1) :=
  C3_unbuffered_rendezvous 0 1

/-- C10 witness: the auto-generated name for one concrete acceptance instant
is valid. -/
theorem C10_witness :
    autoUsername 123456789 = "User-" ++ decRepr (123456789 % 10000) ∧
    123456789 % 10000 ≤ 9999 ∧
    autoUsername 123456789 ≠ "" ∧
    (autoUsername 123456789).length ≤ maxUsernameLength ∧
    goLen (autoUsername 123456789) ≤ maxUsernameLength ∧
    (autoUsername 123456789).data.all validUsernameChar = true ∧
    validateUsername (autoUsername 123456789) = Except.ok () :=
  C10_auto_name_valid 123456789

end Chat
